import Mathlib

/-!
Verification of the Crosspoint client-side session logic (src/src/App.tsx).

The development shallowly embeds the quiz session state machine
(`ActiveQuiz`), the quiz-completion / verification-merge handler
(`handleQuizComplete`), the completion wrapper of
`QuizCategorySelectionView`, the realtime verification-snapshot handler,
and the top-level error/render logic.  Numeric score comparison is
modelled in exact rational arithmetic: the source compares
`score / total >= 0.70` on IEEE doubles, which coincides with the exact
rational comparison for every quiz size occurring here (the decimal
literal 0.7 denotes an exact rational constant in the model).
JavaScript `Set` iteration-order semantics (insertion order, first
occurrence kept) are modelled by `insertUnique`/`jsSetOfList`.
-/

namespace Crosspoint

/-- A quiz question of the static bank (`QuizQuestion` in the source). -/
structure QuizQuestion where
  question : String
  options : List String
  answer : String
deriving DecidableEq

/-- First Physics question of `QUIZ_DATA`. -/
def physicsQ0 : QuizQuestion :=
  { question := "What principle states that the total momentum of a closed system remains constant?",
    options := ["Huygens\x27 Principle", "Principle of Conservation of Momentum",
                "Archimedes\x27 Principle", "Bernoulli\x27s Principle"],
    answer := "Principle of Conservation of Momentum" }

/-- Second Physics question of `QUIZ_DATA`. -/
def physicsQ1 : QuizQuestion :=
  { question := "What is the SI unit of electric current?",
    options := ["Volt", "Ohm", "Ampere", "Watt"],
    answer := "Ampere" }

/-- Third Physics question of `QUIZ_DATA`. -/
def physicsQ2 : QuizQuestion :=
  { question := "Which phenomenon is responsible for the apparent bending of a spoon in a glass of water?",
    options := ["Diffraction", "Refraction", "Polarization", "Interference"],
    answer := "Refraction" }

/-- First Web Development question of `QUIZ_DATA`. -/
def webQ0 : QuizQuestion :=
  { question := "Which CSS property is used to create space around elements, outside of any defined borders?",
    options := ["padding", "margin", "border-width", "inset"],
    answer := "margin" }

/-- Second Web Development question of `QUIZ_DATA`. -/
def webQ1 : QuizQuestion :=
  { question := "In React, what is used to handle data that changes over time within a component?",
    options := ["props", "state", "context", "refs"],
    answer := "state" }

/-- The single Financial Modeling question of `QUIZ_DATA`. -/
def finQ0 : QuizQuestion :=
  { question := "What does NPV stand for in financial modeling?",
    options := ["Net Profit Variance", "Nominal Price Value",
                "Net Present Value", "New Project Valuation"],
    answer := "Net Present Value" }

/-- The static quiz bank `QUIZ_DATA`: category name to ordered question list. -/
def QUIZ_DATA : List (String × List QuizQuestion) :=
  [("Physics", [physicsQ0, physicsQ1, physicsQ2]),
   ("Web Development", [webQ0, webQ1]),
   ("Financial Modeling", [finQ0])]

/-- Look up the quiz bank of a category (`QUIZ_DATA[activeQuizCategory]`). -/
def quizDataFor (category : String) : Option (List QuizQuestion) :=
  (QUIZ_DATA.find? (fun p => p.fst == category)).map Prod.snd

/-- `PASSING_SCORE_PERCENTAGE = 0.7` of the source; the decimal literal
denotes the exact rational 7/10. -/
def PASSING_SCORE_PERCENTAGE : ℚ := 7 / 10

/-- `scorePercentage = score / total` of `handleQuizComplete`. -/
def scorePercentage (score total : ℕ) : ℚ := (score : ℚ) / (total : ℚ)

/-- `passed = scorePercentage >= PASSING_SCORE_PERCENTAGE` of `handleQuizComplete`. -/
def quizPassed (score total : ℕ) : Bool :=
  decide (scorePercentage score total ≥ PASSING_SCORE_PERCENTAGE)

/-- JavaScript `Set.add` step: append `x` unless already present
(first occurrence kept, insertion order preserved). -/
def insertUnique (acc : List String) (x : String) : List String :=
  if x ∈ acc then acc else acc ++ [x]

/-- `Array.from(new Set(l))`: deduplicate keeping first occurrences in order. -/
def jsSetOfList (l : List String) : List String := l.foldl insertUnique []

/-- `newCategories = Array.from(new Set([...verifiedCategories, category]))`
of `handleQuizComplete`. -/
def newCategories (old : List String) (category : String) : List String :=
  jsSetOfList (old ++ [category])

/-- The in-memory state of one `ActiveQuiz` session: the five `useState`
hooks `currentQuestionIndex`, `score`, `selectedOption`, `showResult`,
`pendingAdvance`. -/
structure QuizState where
  currentQuestionIndex : ℕ
  score : ℕ
  selectedOption : Option String
  showResult : Bool
  pendingAdvance : Bool
deriving DecidableEq

/-- The initial hook values of a fresh `ActiveQuiz` mount. -/
def initialQuizState : QuizState :=
  { currentQuestionIndex := 0, score := 0, selectedOption := none,
    showResult := false, pendingAdvance := false }

/-- `handleAnswerSelect`: a no-op once the result is shown, otherwise
record the chosen option (last call wins). -/
def handleAnswerSelect (s : QuizState) (option : String) : QuizState :=
  if s.showResult then s else { s with selectedOption := some option }

/-- The values the `handleNext` closure captures for the deferred
`setTimeout` callback: `isLastQuestion`, `finalScore`, `totalQuestions`. -/
structure PendingAdvance where
  isLast : Bool
  finalScore : ℕ
  total : ℕ
deriving DecidableEq

/-- `handleNext`: returns `none` when the guard
`!selectedOption || showResult || pendingAdvance` rejects the submit;
otherwise the revealed state (`showResult`/`pendingAdvance` set) paired
with the captured values for the deferred advance.  The comparison
`selectedOption === currentQuestion.answer` is case-sensitive string
equality. -/
def handleNext (quizData : List QuizQuestion) (s : QuizState) :
    Option (QuizState × PendingAdvance) :=
  match s.selectedOption with
  | none => none
  | some sel =>
    if s.showResult || s.pendingAdvance then none
    else
      match quizData[s.currentQuestionIndex]? with
      | none => none
      | some q =>
        some ({ s with showResult := true, pendingAdvance := true },
          { isLast := s.currentQuestionIndex == quizData.length - 1,
            finalScore := s.score + (if sel = q.answer then 1 else 0),
            total := quizData.length })

/-- The `setTimeout` callback of `handleNext`: on the last question it
completes with `(finalScore, totalQuestions)`, otherwise it advances to
the next index with the score updated and the selection and flags
cleared. -/
def fireTimer (s : QuizState) (p : PendingAdvance) : QuizState ⊕ (ℕ × ℕ) :=
  if p.isLast then Sum.inr (p.finalScore, p.total)
  else Sum.inl { currentQuestionIndex := s.currentQuestionIndex + 1,
                 score := p.finalScore, selectedOption := none,
                 showResult := false, pendingAdvance := false }

/-- The states one `ActiveQuiz` session can reach from its mount by the
user selecting options, submitting, and the pending advance firing. -/
inductive Reachable (quizData : List QuizQuestion) : QuizState → Prop where
  | init : Reachable quizData initialQuizState
  | select (s : QuizState) (opt : String) :
      Reachable quizData s → Reachable quizData (handleAnswerSelect s opt)
  | reveal (s s1 : QuizState) (p : PendingAdvance) :
      Reachable quizData s → handleNext quizData s = some (s1, p) →
      Reachable quizData s1
  | advance (s s1 s2 : QuizState) (p : PendingAdvance) :
      Reachable quizData s → handleNext quizData s = some (s1, p) →
      fireTimer s1 p = Sum.inl s2 → Reachable quizData s2

/-- The observable outcome of one `handleQuizComplete` call: the
persisted verified-category list afterwards, the `setError` argument if
any, whether a `setDoc` write was attempted, and whether
`setActiveQuizCategory(null)` ran. -/
structure QuizCompleteResult where
  verifiedAfter : List String
  errorMsg : Option String
  writeAttempted : Bool
  activeQuizCleared : Bool
deriving DecidableEq

/-- `handleQuizComplete(category, score, total)`: early (silent) return
when `!db || !userId`; otherwise computes `passed` and, if passed,
attempts the merge write (on failure `setError` is called); in either
case it then clears the active quiz category. -/
def handleQuizComplete (hasDb hasUser : Bool) (verified : List String)
    (category : String) (score total : ℕ) (writeSucceeds : Bool) :
    QuizCompleteResult :=
  if !hasDb || !hasUser then
    { verifiedAfter := verified, errorMsg := none,
      writeAttempted := false, activeQuizCleared := false }
  else if quizPassed score total then
    if writeSucceeds then
      { verifiedAfter := newCategories verified category, errorMsg := none,
        writeAttempted := true, activeQuizCleared := true }
    else
      { verifiedAfter := verified,
        errorMsg := some ("Failed to verify expertise in " ++ category ++ "."),
        writeAttempted := true, activeQuizCleared := true }
  else
    { verifiedAfter := verified, errorMsg := none,
      writeAttempted := false, activeQuizCleared := true }

/-- The argument triple of the `onComplete` callback of `ActiveQuiz`. -/
structure CompletionArgs where
  category : Option String
  finalScore : Option ℕ
  total : Option ℕ
deriving DecidableEq

/-- The Cancel Quiz button: `onComplete(null, null, null)`, independent
of the session state it is pressed in. -/
def cancelQuiz (s : QuizState) : CompletionArgs :=
  { category := none, finalScore := none, total := none }

/-- The completion arguments a finished quiz reports:
`onComplete(category, finalScore, totalQuestions)`. -/
def completeArgs (category : String) (finalScore total : ℕ) : CompletionArgs :=
  { category := some category, finalScore := some finalScore, total := some total }

/-- The guard `category && finalScore != null && total != null` of the
`onComplete` wrapper in `QuizCategorySelectionView` (JavaScript
truthiness: the empty string is falsy). -/
def completionCall (a : CompletionArgs) : Option (String × ℕ × ℕ) :=
  match a.category, a.finalScore, a.total with
  | some c, some f, some t => if c = "" then none else some (c, f, t)
  | _, _, _ => none

/-- The three top-level views `appState` ranges over. -/
inductive AppView where
  | feed
  | post
  | quiz
deriving DecidableEq

/-- The `onComplete` wrapper of `QuizCategorySelectionView`: always
returns to the feed view, and calls `handleQuizComplete` only when a
category, score and total were all reported. -/
def onQuizComplete (hasDb hasUser : Bool) (verified : List String)
    (writeSucceeds : Bool) (a : CompletionArgs) : AppView × QuizCompleteResult :=
  (AppView.feed,
   match completionCall a with
   | some (c, f, t) => handleQuizComplete hasDb hasUser verified c f t writeSucceeds
   | none =>
     { verifiedAfter := verified, errorMsg := none,
       writeAttempted := false, activeQuizCleared := false })

/-- What the top-level `App` render shows. -/
inductive Screen where
  | loading
  | fatalError (msg : String)
  | feedView
  | postView
  | quizView
deriving DecidableEq

/-- The render precedence of `App`: loading first, then the sticky error
screen that replaces the entire UI, then the view dispatch. -/
def renderApp (isLoading : Bool) (error : Option String) (view : AppView) :
    Screen :=
  if isLoading then Screen.loading
  else
    match error with
    | some m => Screen.fatalError m
    | none =>
      match view with
      | AppView.post => Screen.postView
      | AppView.quiz => Screen.quizView
      | AppView.feed => Screen.feedView

/-- The questions-subscription error handler: `setError("Failed to load
questions from database.")`, replacing any prior error value. -/
def onQuestionsError (e : Option String) : Option String :=
  some "Failed to load questions from database."

/-- The `handlePostQuestion` catch handler: `setError(...)`. -/
def onPostQuestionError (e : Option String) : Option String :=
  some "Could not post question. Check network connection or database permissions."

/-- The verification-subscription error handler: it only logs to the
console and changes no application state. -/
def onVerificationsError (e : Option String) : Option String := e

/-- A client-side verification record (`VerificationDoc`). -/
structure VerificationDoc where
  id : String
  displayName : Option String
  verifiedCategories : List String
deriving DecidableEq

/-- The data fields of a stored verification document. -/
structure VerificationData where
  displayName : Option String
  verifiedCategories : List String
deriving DecidableEq

/-- The verification-document snapshot handler: an existing document is
adopted under the user's id; an absent document yields
`[{ id: userId, verifiedCategories: [] }]`. -/
def onVerificationSnapshot (userId : String) (snap : Option VerificationData) :
    List VerificationDoc :=
  match snap with
  | some d =>
    [{ id := userId, displayName := d.displayName,
       verifiedCategories := d.verifiedCategories }]
  | none => [{ id := userId, displayName := none, verifiedCategories := [] }]

/-- `userId || "unknown"` (JavaScript truthiness: null and the empty
string both fall back). -/
def fallbackId (userId : Option String) : String :=
  match userId with
  | some u => if u = "" then "unknown" else u
  | none => "unknown"

/-- The `currentUserVerifications` memo: the record found for the
current user id, or a well-defined default with no verified categories. -/
def currentUserVerifications (userId : Option String)
    (userVerifications : List VerificationDoc) : VerificationDoc :=
  match userVerifications.find? (fun v => some v.id == userId) with
  | some v => v
  | none =>
    { id := fallbackId userId, displayName := none, verifiedCategories := [] }

/-! ## Properties of the JavaScript-`Set` deduplicating merge -/

theorem mem_insertUnique (acc : List String) (x y : String) :
    y ∈ insertUnique acc x ↔ y ∈ acc ∨ y = x := by
  unfold insertUnique
  split
  · rename_i hx
    constructor
    · exact Or.inl
    · rintro (h | rfl)
      · exact h
      · exact hx
  · simp

theorem nodup_insertUnique (acc : List String) (x : String) (h : acc.Nodup) :
    (insertUnique acc x).Nodup := by
  unfold insertUnique
  split
  · exact h
  · rename_i hx
    rw [List.nodup_append]
    refine ⟨h, List.nodup_singleton x, ?_⟩
    intro a ha hax
    rw [List.mem_singleton] at hax
    exact hx (hax ▸ ha)

theorem foldl_insertUnique_mem (l acc : List String) (y : String) :
    y ∈ l.foldl insertUnique acc ↔ y ∈ acc ∨ y ∈ l := by
  induction l generalizing acc with
  | nil => simp
  | cons a l ih =>
    rw [List.foldl_cons, ih, mem_insertUnique]
    simp [List.mem_cons, or_assoc]

theorem foldl_insertUnique_nodup (l acc : List String) (h : acc.Nodup) :
    (l.foldl insertUnique acc).Nodup := by
  induction l generalizing acc with
  | nil => exact h
  | cons a l ih => exact ih _ (nodup_insertUnique acc a h)

theorem foldl_insertUnique_of_nodup (l acc : List String)
    (h : (acc ++ l).Nodup) : l.foldl insertUnique acc = acc ++ l := by
  induction l generalizing acc with
  | nil => simp
  | cons a l ih =>
    have ha : a ∉ acc := fun hmem =>
      (List.nodup_append.mp h).2.2 hmem (List.mem_cons_self a l)
    rw [List.foldl_cons]
    have hstep : insertUnique acc a = acc ++ [a] := by
      unfold insertUnique
      rw [if_neg ha]
    rw [hstep, ih (acc ++ [a]) (by rw [List.append_assoc]; exact h)]
    simp

theorem newCategories_of_mem (old : List String) (c : String)
    (hnd : old.Nodup) (hc : c ∈ old) : newCategories old c = old := by
  unfold newCategories jsSetOfList
  rw [List.foldl_append, foldl_insertUnique_of_nodup old [] (by simpa using hnd)]
  simp [insertUnique, hc]

/-! ## The claims -/

/-- C3: on a quiz pass the merge `Array.from(new Set([...S, c]))` yields
the duplicate-free set union of the verified-category set S and the
passed category c; when c is already verified the merge is a no-op, and
no category already in S is ever removed. -/
theorem c3_merge_is_set_union (old : List String) (c : String) (hnd : old.Nodup) :
    (newCategories old c).Nodup ∧
    (∀ x, x ∈ newCategories old c ↔ x ∈ old ∨ x = c) ∧
    (∀ x, x ∈ old → x ∈ newCategories old c) ∧
    (c ∈ old → newCategories old c = old) := by
  refine ⟨foldl_insertUnique_nodup _ _ List.nodup_nil, fun x => ?_, fun x hx => ?_,
    fun hc => newCategories_of_mem old c hnd hc⟩
  · unfold newCategories jsSetOfList
    rw [foldl_insertUnique_mem]
    simp
  · unfold newCategories jsSetOfList
    rw [foldl_insertUnique_mem]
    simp [hx]

theorem c3_witness :
    (newCategories ["Physics", "Web Development"] "Physics").Nodup ∧
    (∀ x, x ∈ newCategories ["Physics", "Web Development"] "Physics" ↔
      x ∈ ["Physics", "Web Development"] ∨ x = "Physics") ∧
    (∀ x, x ∈ ["Physics", "Web Development"] →
      x ∈ newCategories ["Physics", "Web Development"] "Physics") ∧
    ("Physics" ∈ ["Physics", "Web Development"] →
      newCategories ["Physics", "Web Development"] "Physics" =
        ["Physics", "Web Development"]) :=
  c3_merge_is_set_union ["Physics", "Web Development"] "Physics" (by decide)

/-- C2: a completion passes exactly when `score / total` reaches the 0.70
threshold (exact rational comparison); equivalently, for positive total,
when `7 * total ≤ 10 * score`; at the boundary, 2 of 3 fails and 3 of 3
passes. -/
theorem c2_passing_threshold (score total : ℕ) (ht : 0 < total) :
    (quizPassed score total = true ↔
      PASSING_SCORE_PERCENTAGE ≤ scorePercentage score total) ∧
    (quizPassed score total = true ↔ 7 * total ≤ 10 * score) ∧
    quizPassed 2 3 = false ∧ quizPassed 3 3 = true := by
  have h1 : quizPassed score total = true ↔
      PASSING_SCORE_PERCENTAGE ≤ scorePercentage score total := by
    simp [quizPassed, ge_iff_le]
  refine ⟨h1, ?_, ?_, ?_⟩
  · rw [h1]
    unfold scorePercentage PASSING_SCORE_PERCENTAGE
    have htq : (0 : ℚ) < (total : ℚ) := by exact_mod_cast ht
    rw [div_le_div_iff₀ (by norm_num) htq, mul_comm (score : ℚ) 10]
    norm_cast
  · simp only [quizPassed, scorePercentage, PASSING_SCORE_PERCENTAGE, ge_iff_le,
      decide_eq_false_iff_not, not_le]
    norm_num
  · simp only [quizPassed, scorePercentage, PASSING_SCORE_PERCENTAGE, ge_iff_le,
      decide_eq_true_eq]
    norm_num

theorem c2_witness :
    (quizPassed 7 10 = true ↔ PASSING_SCORE_PERCENTAGE ≤ scorePercentage 7 10) ∧
    (quizPassed 7 10 = true ↔ 7 * 10 ≤ 10 * 7) ∧
    quizPassed 2 3 = false ∧ quizPassed 3 3 = true :=
  c2_passing_threshold 7 10 (by decide)

/-- C7: a completion that does not pass changes no verified-category
state, attempts no write, signals no failure (no `setError`), completes,
and still ends the in-memory quiz session (the active category is
cleared). -/
theorem c7_failed_quiz_is_silent_success (verified : List String)
    (category : String) (score total : ℕ) (writeSucceeds : Bool)
    (hfail : quizPassed score total = false) :
    handleQuizComplete true true verified category score total writeSucceeds =
      { verifiedAfter := verified, errorMsg := none,
        writeAttempted := false, activeQuizCleared := true } := by
  simp [handleQuizComplete, hfail]

theorem c7_witness :
    quizPassed 2 3 = false ∧
    handleQuizComplete true true ["Web Development"] "Physics" 2 3 true =
      { verifiedAfter := ["Web Development"], errorMsg := none,
        writeAttempted := false, activeQuizCleared := true } := by
  have h : quizPassed 2 3 = false := by
    simp only [quizPassed, scorePercentage, PASSING_SCORE_PERCENTAGE, ge_iff_le,
      decide_eq_false_iff_not, not_le]
    norm_num
  exact ⟨h, c7_failed_quiz_is_silent_success _ _ _ _ _ h⟩

/-- C5: cancelling a session (the Cancel button fires
`onComplete(null, null, null)` in every state) reports no category and
no score, never reaches `handleQuizComplete`, and so attempts no
verification write; the wrapper only returns to the feed view. -/
theorem c5_cancel_reports_nothing (hasDb hasUser : Bool)
    (verified : List String) (writeSucceeds : Bool) (s : QuizState) :
    (cancelQuiz s).category = none ∧ (cancelQuiz s).finalScore = none ∧
    (cancelQuiz s).total = none ∧
    completionCall (cancelQuiz s) = none ∧
    onQuizComplete hasDb hasUser verified writeSucceeds (cancelQuiz s) =
      (AppView.feed,
       { verifiedAfter := verified, errorMsg := none,
         writeAttempted := false, activeQuizCleared := false }) :=
  ⟨rfl, rfl, rfl, rfl, rfl⟩

/-- C10: with the verification document absent, the snapshot handler and
the `currentUserVerifications` memo produce a well-defined record with
the user's id and an empty verified-category list, and a first pass
merges the new category into that empty set. -/
theorem c10_absent_doc_default (uid c : String) :
    currentUserVerifications (some uid) (onVerificationSnapshot uid none) =
      { id := uid, displayName := none, verifiedCategories := [] } ∧
    (currentUserVerifications (some uid)
      (onVerificationSnapshot uid none)).verifiedCategories = [] ∧
    newCategories (currentUserVerifications (some uid)
      (onVerificationSnapshot uid none)).verifiedCategories c = [c] := by
  have h : currentUserVerifications (some uid) (onVerificationSnapshot uid none) =
      { id := uid, displayName := none, verifiedCategories := [] } := by
    simp [currentUserVerifications, onVerificationSnapshot, List.find?]
  refine ⟨h, by rw [h], ?_⟩
  rw [h]
  simp [newCategories, jsSetOfList, insertUnique]

/-- C8 counterexample: a questions-subscription error and a post-write
error each set the top-level error state, and the app then renders the
sticky fatal-error screen that replaces the entire UI — contradicting
the claim that such errors never escalate to that state. -/
theorem c8_counterexample :
    onQuestionsError none = some "Failed to load questions from database." ∧
    renderApp false (onQuestionsError none) AppView.feed =
      Screen.fatalError "Failed to load questions from database." ∧
    onPostQuestionError none =
      some "Could not post question. Check network connection or database permissions." ∧
    renderApp false (onPostQuestionError none) AppView.feed =
      Screen.fatalError
        "Could not post question. Check network connection or database permissions." :=
  ⟨rfl, rfl, rfl, rfl⟩

/-- C8 amended: questions-subscription errors and write errors set the
same single top-level error state used for configuration and identity
errors, and any set error makes the render replace the entire UI with
the fatal-error screen; only the verification-subscription error stays
local (it changes no state). -/
theorem c8_amended_errors_escalate (e : Option String) (v : AppView) (m : String) :
    renderApp false (onQuestionsError e) v =
      Screen.fatalError "Failed to load questions from database." ∧
    renderApp false (onPostQuestionError e) v =
      Screen.fatalError
        "Could not post question. Check network connection or database permissions." ∧
    renderApp false (some m) v = Screen.fatalError m ∧
    onVerificationsError e = e :=
  ⟨rfl, rfl, rfl, rfl⟩

/-- C9 counterexample: `handleQuizComplete` invoked while the identity is
unknown silently returns — no error message, no write, and not even the
active quiz category cleared — and the verification-subscription error
handler changes no observable state; so not every failure path produces
an observable signal. -/
theorem c9_counterexample :
    (handleQuizComplete true false ["Physics"] "Physics" 3 3 true).errorMsg = none ∧
    handleQuizComplete true false ["Physics"] "Physics" 3 3 true =
      { verifiedAfter := ["Physics"], errorMsg := none,
        writeAttempted := false, activeQuizCleared := false } ∧
    onVerificationsError (some "Error fetching verifications") =
      some "Error fetching verifications" :=
  ⟨rfl, rfl, rfl⟩

/-- C9 amended: a failed persistence write on a passed quiz is signalled
via the error message, distinct from a failed quiz attempt (which sets
none); but a completion with the database or identity missing silently
returns with no signal and without ending the session state, and the
verification-subscription error handler produces no state flag. -/
theorem c9_amended_signalling (verified : List String) (category : String)
    (score total : ℕ) (writeSucceeds : Bool) (e : Option String)
    (hpass : quizPassed score total = true) :
    (handleQuizComplete true true verified category score total false).errorMsg =
      some ("Failed to verify expertise in " ++ category ++ ".") ∧
    (∀ s2 t2 w, quizPassed s2 t2 = false →
      (handleQuizComplete true true verified category s2 t2 w).errorMsg = none) ∧
    handleQuizComplete false true verified category score total writeSucceeds =
      { verifiedAfter := verified, errorMsg := none,
        writeAttempted := false, activeQuizCleared := false } ∧
    handleQuizComplete true false verified category score total writeSucceeds =
      { verifiedAfter := verified, errorMsg := none,
        writeAttempted := false, activeQuizCleared := false } ∧
    onVerificationsError e = e := by
  refine ⟨?_, ?_, rfl, rfl, rfl⟩
  · simp [handleQuizComplete, hpass]
  · intro s2 t2 w hf
    simp [handleQuizComplete, hf]

theorem c9_witness :
    quizPassed 3 3 = true ∧
    ((handleQuizComplete true true [] "Physics" 3 3 false).errorMsg =
      some ("Failed to verify expertise in " ++ "Physics" ++ ".") ∧
    (∀ s2 t2 w, quizPassed s2 t2 = false →
      (handleQuizComplete true true [] "Physics" s2 t2 w).errorMsg = none) ∧
    handleQuizComplete false true [] "Physics" 3 3 true =
      { verifiedAfter := [], errorMsg := none,
        writeAttempted := false, activeQuizCleared := false } ∧
    handleQuizComplete true false [] "Physics" 3 3 true =
      { verifiedAfter := [], errorMsg := none,
        writeAttempted := false, activeQuizCleared := false } ∧
    onVerificationsError none = none) := by
  have h : quizPassed 3 3 = true := by
    simp only [quizPassed, scorePercentage, PASSING_SCORE_PERCENTAGE, ge_iff_le,
      decide_eq_true_eq]
    norm_num
  exact ⟨h, c9_amended_signalling [] "Physics" 3 3 true none h⟩

/-! ## The quiz session state machine -/

theorem handleNext_eq_some (quizData : List QuizQuestion) (s s1 : QuizState)
    (p : PendingAdvance) (h : handleNext quizData s = some (s1, p)) :
    s.showResult = false ∧ s.pendingAdvance = false ∧
    s1 = { s with showResult := true, pendingAdvance := true } ∧
    ∃ sel q, s.selectedOption = some sel ∧
      quizData[s.currentQuestionIndex]? = some q ∧
      p = { isLast := s.currentQuestionIndex == quizData.length - 1,
            finalScore := s.score + (if sel = q.answer then 1 else 0),
            total := quizData.length } := by
  unfold handleNext at h
  split at h
  · exact Option.noConfusion h
  · rename_i sel hsel
    split at h
    · exact Option.noConfusion h
    · rename_i hb
      rw [Bool.or_eq_true, not_or, Bool.not_eq_true, Bool.not_eq_true] at hb
      split at h
      · exact Option.noConfusion h
      · rename_i q hq
        injection h with h2
        rw [Prod.mk.injEq] at h2
        exact ⟨hb.1, hb.2, h2.1.symm, sel, q, hsel, hq, h2.2.symm⟩

theorem handleNext_submit (quizData : List QuizQuestion) (s : QuizState)
    (sel : String) (q : QuizQuestion)
    (hsel : s.selectedOption = some sel)
    (hq : quizData[s.currentQuestionIndex]? = some q)
    (hshow : s.showResult = false) (hpend : s.pendingAdvance = false) :
    handleNext quizData s =
      some ({ s with showResult := true, pendingAdvance := true },
        { isLast := s.currentQuestionIndex == quizData.length - 1,
          finalScore := s.score + (if sel = q.answer then 1 else 0),
          total := quizData.length }) := by
  unfold handleNext
  rw [hsel, hshow, hpend, hq]
  rfl

/-- C1: a submit succeeds exactly under the guard (selection present,
result not yet revealed, no advance pending, question in range), scores
by case-sensitive string equality against the answer, and the deferred
advance either completes with `(scoreAfter, N)` on the last index or
moves to the next index with the score updated and the selection and
reveal flag cleared; with no selection or after reveal, submit is
rejected. -/
theorem c1_submit_and_advance (quizData : List QuizQuestion) (s s2 : QuizState)
    (sel : String) (q : QuizQuestion)
    (hsel : s.selectedOption = some sel)
    (hq : quizData[s.currentQuestionIndex]? = some q)
    (hshow : s.showResult = false) (hpend : s.pendingAdvance = false)
    (h2 : s2.selectedOption = none ∨ s2.showResult = true) :
    handleNext quizData s =
      some ({ s with showResult := true, pendingAdvance := true },
        { isLast := s.currentQuestionIndex == quizData.length - 1,
          finalScore := s.score + (if sel = q.answer then 1 else 0),
          total := quizData.length }) ∧
    (s.currentQuestionIndex = quizData.length - 1 →
      fireTimer { s with showResult := true, pendingAdvance := true }
        { isLast := s.currentQuestionIndex == quizData.length - 1,
          finalScore := s.score + (if sel = q.answer then 1 else 0),
          total := quizData.length } =
      Sum.inr (s.score + (if sel = q.answer then 1 else 0), quizData.length)) ∧
    (s.currentQuestionIndex ≠ quizData.length - 1 →
      fireTimer { s with showResult := true, pendingAdvance := true }
        { isLast := s.currentQuestionIndex == quizData.length - 1,
          finalScore := s.score + (if sel = q.answer then 1 else 0),
          total := quizData.length } =
      Sum.inl { currentQuestionIndex := s.currentQuestionIndex + 1,
                score := s.score + (if sel = q.answer then 1 else 0),
                selectedOption := none, showResult := false,
                pendingAdvance := false }) ∧
    handleNext quizData s2 = none := by
  refine ⟨handleNext_submit quizData s sel q hsel hq hshow hpend, ?_, ?_, ?_⟩
  · intro hlast
    simp [fireTimer, hlast]
  · intro hne
    simp [fireTimer, hne]
  · unfold handleNext
    rcases h2 with h2 | h2
    · rw [h2]
    · cases hsel2 : s2.selectedOption with
      | none => rfl
      | some x =>
        rw [h2]
        rfl

/-- The session state after answering the single Financial Modeling
question (selection made, not yet submitted). -/
def finReadyState : QuizState :=
  { currentQuestionIndex := 0, score := 0,
    selectedOption := some "Net Present Value",
    showResult := false, pendingAdvance := false }

theorem c1_witness :
    handleNext [finQ0] finReadyState =
      some ({ finReadyState with showResult := true, pendingAdvance := true },
        { isLast := (0 == List.length [finQ0] - 1),
          finalScore := 0 + (if "Net Present Value" = finQ0.answer then 1 else 0),
          total := List.length [finQ0] }) ∧
    (finReadyState.currentQuestionIndex = List.length [finQ0] - 1 →
      fireTimer { finReadyState with showResult := true, pendingAdvance := true }
        { isLast := (0 == List.length [finQ0] - 1),
          finalScore := 0 + (if "Net Present Value" = finQ0.answer then 1 else 0),
          total := List.length [finQ0] } =
      Sum.inr (0 + (if "Net Present Value" = finQ0.answer then 1 else 0),
        List.length [finQ0])) ∧
    (finReadyState.currentQuestionIndex ≠ List.length [finQ0] - 1 →
      fireTimer { finReadyState with showResult := true, pendingAdvance := true }
        { isLast := (0 == List.length [finQ0] - 1),
          finalScore := 0 + (if "Net Present Value" = finQ0.answer then 1 else 0),
          total := List.length [finQ0] } =
      Sum.inl { currentQuestionIndex := 0 + 1,
                score := 0 + (if "Net Present Value" = finQ0.answer then 1 else 0),
                selectedOption := none, showResult := false,
                pendingAdvance := false }) ∧
    handleNext [finQ0] { finReadyState with selectedOption := none } = none :=
  c1_submit_and_advance [finQ0] finReadyState
    { finReadyState with selectedOption := none }
    "Net Present Value" finQ0 rfl rfl rfl rfl (Or.inl rfl)

/-- C6: once the result of the current question is revealed
(`showResult` set, as after a successful submit, during the advance
delay or later), selecting an option is a no-op: it changes nothing, so
the deferred advance is unaffected, and the score committed by the
submit was computed from the selection recorded at submit time. -/
theorem c6_select_after_reveal_is_noop (quizData : List QuizQuestion)
    (s s1 : QuizState) (p : PendingAdvance) (opt sel : String) (q : QuizQuestion)
    (hsel : s.selectedOption = some sel)
    (hq : quizData[s.currentQuestionIndex]? = some q)
    (hnext : handleNext quizData s = some (s1, p)) :
    s1.showResult = true ∧
    handleAnswerSelect s1 opt = s1 ∧
    s1.selectedOption = some sel ∧
    fireTimer (handleAnswerSelect s1 opt) p = fireTimer s1 p ∧
    p.finalScore = s.score + (if sel = q.answer then 1 else 0) := by
  obtain ⟨hsh, hpd, hs1, sel2, q2, hsel2, hq2, hp⟩ :=
    handleNext_eq_some quizData s s1 p hnext
  have hseleq : sel2 = sel := by
    rw [hsel] at hsel2
    exact (Option.some.inj hsel2).symm
  have hqeq : q2 = q := by
    rw [hq] at hq2
    exact (Option.some.inj hq2).symm
  have hshow1 : s1.showResult = true := by rw [hs1]
  have hnoop : handleAnswerSelect s1 opt = s1 := by
    simp [handleAnswerSelect, hshow1]
  refine ⟨hshow1, hnoop, ?_, by rw [hnoop], ?_⟩
  · rw [hs1]
    exact hsel
  · rw [hp, hseleq, hqeq]

theorem c6_witness :
    ({ finReadyState with showResult := true, pendingAdvance := true } :
        QuizState).showResult = true ∧
    handleAnswerSelect
      { finReadyState with showResult := true, pendingAdvance := true }
      "Nominal Price Value" =
      { finReadyState with showResult := true, pendingAdvance := true } ∧
    ({ finReadyState with showResult := true, pendingAdvance := true } :
        QuizState).selectedOption = some "Net Present Value" ∧
    fireTimer (handleAnswerSelect
        { finReadyState with showResult := true, pendingAdvance := true }
        "Nominal Price Value")
      { isLast := true, finalScore := 1, total := 1 } =
      fireTimer { finReadyState with showResult := true, pendingAdvance := true }
        { isLast := true, finalScore := 1, total := 1 } ∧
    ({ isLast := true, finalScore := 1, total := 1 } : PendingAdvance).finalScore =
      0 + (if "Net Present Value" = finQ0.answer then 1 else 0) :=
  c6_select_after_reveal_is_noop [finQ0] finReadyState
    { finReadyState with showResult := true, pendingAdvance := true }
    { isLast := true, finalScore := 1, total := 1 }
    "Nominal Price Value" "Net Present Value" finQ0 rfl rfl (by decide)

theorem reachable_score_le (quizData : List QuizQuestion) (s : QuizState)
    (h : Reachable quizData s) : s.score ≤ s.currentQuestionIndex := by
  induction h with
  | init => exact Nat.le_refl 0
  | select s opt hr ih =>
    unfold handleAnswerSelect
    split
    · exact ih
    · exact ih
  | reveal s s1 p hr hn ih =>
    obtain ⟨hsh, hpd, hs1, sel, q, hsel, hq, hp⟩ :=
      handleNext_eq_some quizData s s1 p hn
    rw [hs1]
    exact ih
  | advance s s1 s2 p hr hn hf ih =>
    obtain ⟨hsh, hpd, hs1, sel, q, hsel, hq, hp⟩ :=
      handleNext_eq_some quizData s s1 p hn
    unfold fireTimer at hf
    by_cases hl : p.isLast = true
    · rw [if_pos hl] at hf
      cases hf
    · rw [if_neg hl] at hf
      injection hf with hfe
      rw [← hfe, hp, hs1]
      simp only []
      split
      · omega
      · omega

/-- C4: in any session over a category's quiz bank run to completion,
the reported final score never exceeds the reported total, and the
reported total equals the number of questions in that bank. -/
theorem c4_final_score_le_total (quizData : List QuizQuestion)
    (category : String) (s s1 : QuizState) (p : PendingAdvance) (f t : ℕ)
    (hcat : quizDataFor category = some quizData)
    (hr : Reachable quizData s)
    (hn : handleNext quizData s = some (s1, p))
    (hf : fireTimer s1 p = Sum.inr (f, t)) :
    f ≤ t ∧ t = quizData.length := by
  obtain ⟨hsh, hpd, hs1, sel, q, hsel, hq, hp⟩ :=
    handleNext_eq_some quizData s s1 p hn
  have hidx : s.currentQuestionIndex < quizData.length :=
    (List.getElem?_eq_some_iff.mp hq).1
  have hscore := reachable_score_le quizData s hr
  unfold fireTimer at hf
  by_cases hl : p.isLast = true
  · rw [if_pos hl] at hf
    injection hf with hfe
    rw [Prod.mk.injEq] at hfe
    obtain ⟨hf1, ht1⟩ := hfe
    rw [← hf1, ← ht1, hp]
    simp only []
    refine ⟨?_, trivial⟩
    split
    · omega
    · omega
  · rw [if_neg hl] at hf
    cases hf

theorem c4_witness : 1 ≤ 1 ∧ 1 = List.length [finQ0] :=
  c4_final_score_le_total [finQ0] "Financial Modeling"
    (handleAnswerSelect initialQuizState "Net Present Value")
    { currentQuestionIndex := 0, score := 0,
      selectedOption := some "Net Present Value",
      showResult := true, pendingAdvance := true }
    { isLast := true, finalScore := 1, total := 1 } 1 1
    (by decide)
    (Reachable.select initialQuizState "Net Present Value" Reachable.init)
    (by decide) (by decide)

end Crosspoint
